import Mathlib

/-!
Shallow embedding of the calculator state machine of
`src/client/src/pages/calculator.tsx` (the only source file with logic).

Numbers: JavaScript numbers are modelled as `Option ℚ`, where `none` plays
the role of `NaN` (propagated by every arithmetic operation, compares false
under `<` and `===`), and `some q` is an exact rational.  This captures the
source exactly on every value the specification's scenarios exercise; the
idealization (no IEEE-754 overflow to `Infinity`, no rounding) is the one
place the embedding departs from JavaScript semantics, and claims whose
truth depends on it are reported as such rather than settled here.

Strings: `currentValue`/`previousValue` are kept as `String`, exactly as in
the source.  `numToString` models `Number.prototype.toString` (sign,
decimal integer part, fractional digits while a finite decimal expansion
remains, up to 17 fractional digits — exact on every value produced in the
scenarios, all of which have short finite decimal expansions).  `parseFloat`
models the JavaScript `parseFloat` on the string forms this program
produces: optional sign, digits, optional `.` plus digits, longest prefix,
`NaN` (`none`) when no digit is found; exponent forms are not modelled
because `numToString` never emits them.

The React component keeps, besides the `CalculatorState` record, two extra
pieces of presentation state set by the handlers: the transient `error`
message and the `previousCalculation` display trail.  Both are included in
`AppState`.  Each handler returns an `Outcome`: `ok s raised` where
`raised` lists the messages passed to `showError` during the transition
(so "exactly one transient error" is `raised = [msg]`), or `thrown msg`
when an exception escapes the handler uncaught (no try/catch on the path,
as happens in `handleOperation`'s chained-evaluation branch).

`HistoryItem.timestamp` (a wall-clock `Date` used only for relative-age
display, never read by any transition) is omitted from the embedding.
-/

/-- A JavaScript number: `none` is `NaN`, `some q` an exact rational. -/
abbrev JsNum := Option ℚ

/-- JS addition: `NaN` propagates. -/
def jsAdd : JsNum → JsNum → JsNum
  | some a, some b => some (a + b)
  | _, _ => none

/-- JS subtraction: `NaN` propagates. -/
def jsSub : JsNum → JsNum → JsNum
  | some a, some b => some (a - b)
  | _, _ => none

/-- JS multiplication: `NaN` propagates. -/
def jsMul : JsNum → JsNum → JsNum
  | some a, some b => some (a * b)
  | _, _ => none

/-- JS division (only reached with a divisor that is not `some 0`:
`calculate` guards `b === 0` first, and `percentage` divides by 100). -/
def jsDiv : JsNum → JsNum → JsNum
  | some a, some b => some (a / b)
  | _, _ => none

/-- JS `x < 0` test: false on `NaN` (`none`), as in JavaScript. -/
def jsLtZero : JsNum → Bool
  | none => false
  | some q => decide (q < 0)

/-- Models `Math.sqrt` on the rational carrier: `NaN` maps to `NaN`,
`some q` to the integer-square-root quotient, which is the exact square
root on every perfect square (the only square roots the specification's
scenarios take).  No claim asserts the numeric value of an inexact root. -/
def jsSqrt : JsNum → JsNum
  | none => none
  | some q => some ((Int.sqrt q.num : ℚ) / (Nat.sqrt q.den : ℚ))

/-- One decimal digit as a character. -/
def digitChar : Nat → Char
  | 0 => '0'
  | 1 => '1'
  | 2 => '2'
  | 3 => '3'
  | 4 => '4'
  | 5 => '5'
  | 6 => '6'
  | 7 => '7'
  | 8 => '8'
  | 9 => '9'
  | _ => '?'

/-- Big-endian decimal digits of a natural number (fuel-structured so it
reduces in the kernel; `fuel = n + 1` always suffices). -/
def natToDigits : Nat → Nat → List Char
  | 0, _ => []
  | fuel + 1, n =>
    if n < 10 then [digitChar n]
    else natToDigits fuel (n / 10) ++ [digitChar (n % 10)]

/-- Decimal representation of a natural number. -/
def natRepr (n : Nat) : String := String.mk (natToDigits (n + 1) n)

/-- Fractional decimal digits of `r ∈ [0, 1)`, at most `fuel` of them. -/
def fracToDigits : Nat → ℚ → List Char
  | 0, _ => []
  | fuel + 1, r =>
    if r = 0 then []
    else
      let d : Nat := (r * 10).num.toNat / (r * 10).den
      digitChar d :: fracToDigits fuel (r * 10 - (d : ℚ))

/-- Models `Number.prototype.toString` for a finite value: sign, integer
part, and (when the value is not an integer) a point and the fractional
digits, up to 17 of them. -/
def ratToString (q : ℚ) : String :=
  let a : ℚ := if q < 0 then -q else q
  let ip : Nat := a.num.toNat / a.den
  let fr : ℚ := a - (ip : ℚ)
  let base : String :=
    natRepr ip ++ (if fr = 0 then "" else "." ++ String.mk (fracToDigits 17 fr))
  if q < 0 then "-" ++ base else base

/-- `toString` on a JS number; `NaN` prints as `"NaN"`. -/
def numToString : JsNum → String
  | none => "NaN"
  | some q => ratToString q

/-- Numeric value of a big-endian digit list. -/
def digitsVal (cs : List Char) : Nat :=
  cs.foldl (fun n c => 10 * n + (c.toNat - 48)) 0

/-- Parse `digits [ '.' digits ]` as a rational; `none` (`NaN`) when no
digit is present at all. -/
def parseFloatAux (sgn : ℚ) (cs : List Char) : JsNum :=
  let intDs := cs.takeWhile Char.isDigit
  let rest := cs.dropWhile Char.isDigit
  let fracDs :=
    match rest with
    | '.' :: r => r.takeWhile Char.isDigit
    | _ => []
  if intDs = [] ∧ fracDs = [] then none
  else some (sgn * ((digitsVal intDs : ℚ) + (digitsVal fracDs : ℚ) / (10 ^ fracDs.length : ℚ)))

/-- Models JavaScript `parseFloat` on the string forms this program
produces (optional sign, digits, optional point and digits; longest
numeric prefix; `NaN` when no digit is found). -/
def parseFloat (s : String) : JsNum :=
  match s.data with
  | '-' :: cs => parseFloatAux (-1) cs
  | '+' :: cs => parseFloatAux 1 cs
  | cs => parseFloatAux 1 cs

/-- A recorded history entry (`timestamp`, unread by any transition, is
omitted). -/
structure HistoryItem where
  calculation : String
  result : String
deriving Repr, DecidableEq

/-- The `CalculatorState` record of the source. -/
structure CalculatorState where
  currentValue : String
  previousValue : String
  operation : Option String
  memory : JsNum
  history : List HistoryItem
  waitingForNewValue : Bool
deriving Repr, DecidableEq

/-- The component's full state: the calculator record plus the two
presentation values the handlers write (`error` via `setError`/`showError`,
`previousCalculation` via `setPreviousCalculation`). -/
structure AppState where
  state : CalculatorState
  error : Option String
  previousCalculation : String
deriving Repr, DecidableEq

/-- The initial state passed to `useState`. -/
def initialState : CalculatorState :=
  { currentValue := "0"
    previousValue := ""
    operation := none
    memory := some 0
    history := []
    waitingForNewValue := false }

/-- The initial component state. -/
def initialApp : AppState :=
  { state := initialState, error := none, previousCalculation := "" }

/-- Result of one handler call: `ok s raised` (new state and the messages
passed to `showError`), or `thrown msg` (an exception left the handler
uncaught). -/
inductive Outcome where
  | ok (s : AppState) (raised : List String)
  | thrown (msg : String)
deriving Repr, DecidableEq

/-- JavaScript truthiness of `string | null`: `null` and `""` are falsy. -/
def truthy : Option String → Bool
  | none => false
  | some s => decide (s ≠ "")

/-- `getOperationSymbol` of the source. -/
def getOperationSymbol (op : String) : String :=
  if op = "+" then "+"
  else if op = "-" then "-"
  else if op = "*" then "×"
  else if op = "/" then "÷"
  else op

/-- `calculate` of the source: the four operator cases, the `b === 0`
guard on division (throwing `"Cannot divide by zero"`), and the default
case returning `b`. -/
def calculate (a b : JsNum) (operation : String) : Except String JsNum :=
  if operation = "+" then Except.ok (jsAdd a b)
  else if operation = "-" then Except.ok (jsSub a b)
  else if operation = "*" then Except.ok (jsMul a b)
  else if operation = "/" then
    if b = some 0 then Except.error "Cannot divide by zero"
    else Except.ok (jsDiv a b)
  else Except.ok b

/-- `addToHistory` of the source: prepend the new entry to
`history.slice(0, 49)`. -/
def addToHistory (calculation result : String) (s : CalculatorState) : CalculatorState :=
  { s with history := ⟨calculation, result⟩ :: s.history.take 49 }

/-- `handleNumber` of the source. -/
def handleNumber (num : String) (app : AppState) : Outcome :=
  if app.state.waitingForNewValue = true then
    Outcome.ok { app with state :=
      { app.state with currentValue := num, waitingForNewValue := false } } []
  else
    Outcome.ok { app with state :=
      { app.state with currentValue :=
          if app.state.currentValue = "0" then num else app.state.currentValue ++ num } } []

/-- `handleOperation` of the source.  In the chained-evaluation branch the
call to `calculate` is NOT wrapped in try/catch, so a `calculate` failure
escapes the handler uncaught (`Outcome.thrown`). -/
def handleOperation (op : String) (app : AppState) : Outcome :=
  if truthy app.state.operation = true ∧ app.state.waitingForNewValue = false then
    match calculate (parseFloat app.state.previousValue) (parseFloat app.state.currentValue)
        (app.state.operation.getD "") with
    | Except.error msg => Outcome.thrown msg
    | Except.ok result =>
      Outcome.ok
        { state :=
            { app.state with
              currentValue := numToString result
              previousValue := numToString result
              operation := some op
              waitingForNewValue := true }
          error := app.error
          previousCalculation := app.state.currentValue ++ " " ++ getOperationSymbol op } []
  else
    Outcome.ok
      { state :=
          { app.state with
            previousValue := app.state.currentValue
            operation := some op
            waitingForNewValue := true }
        error := app.error
        previousCalculation := app.state.currentValue ++ " " ++ getOperationSymbol op } []

/-- `handleDecimal` of the source. -/
def handleDecimal (app : AppState) : Outcome :=
  if app.state.waitingForNewValue = true then
    Outcome.ok { app with state :=
      { app.state with currentValue := "0.", waitingForNewValue := false } } []
  else if app.state.currentValue.data.contains '.' = false then
    Outcome.ok { app with state :=
      { app.state with currentValue := app.state.currentValue ++ "." } } []
  else Outcome.ok app []

/-- `handleEquals` of the source: guarded by `prev.operation &&
prev.previousValue !== ''`; on success records the history entry, clears
the error and the display trail and installs the result; the `catch` turns
a `calculate` failure into one `showError` call with the state unchanged. -/
def handleEquals (app : AppState) : Outcome :=
  if truthy app.state.operation = true ∧ app.state.previousValue ≠ "" then
    match calculate (parseFloat app.state.previousValue) (parseFloat app.state.currentValue)
        (app.state.operation.getD "") with
    | Except.ok result =>
      Outcome.ok
        { state :=
            { addToHistory
                (app.state.previousValue ++ " " ++
                  getOperationSymbol (app.state.operation.getD "") ++ " " ++ app.state.currentValue)
                (numToString result) app.state with
              currentValue := numToString result
              previousValue := ""
              operation := none
              waitingForNewValue := true }
          error := none
          previousCalculation := "" } []
    | Except.error msg => Outcome.ok { app with error := some msg } [msg]
  else Outcome.ok app []

/-- `handleClear` of the source: resets the four entry fields, clears the
error and the display trail, leaves `memory` and `history` alone. -/
def handleClear (app : AppState) : Outcome :=
  Outcome.ok
    { state :=
        { app.state with
          currentValue := "0"
          previousValue := ""
          operation := none
          waitingForNewValue := false }
      error := none
      previousCalculation := "" } []

/-- `handleAdvancedOperation` of the source: the three unary cases (with
the `current < 0` guard on square root throwing `"Invalid input"`, caught
by the surrounding try/catch into one `showError` call), the default case
a no-op; on success records the entry, clears the error, installs the
result and sets `waitingForNewValue`. -/
def handleAdvancedOperation (operation : String) (app : AppState) : Outcome :=
  let current := parseFloat app.state.currentValue
  if operation = "square-root" ∧ jsLtZero current = true then
    Outcome.ok { app with error := some "Invalid input" } ["Invalid input"]
  else if operation = "percentage" ∨ operation = "square-root" ∨ operation = "square" then
    let result :=
      if operation = "percentage" then jsDiv current (some 100)
      else if operation = "square-root" then jsSqrt current
      else jsMul current current
    let calculationDisplay :=
      if operation = "percentage" then numToString current ++ "%"
      else if operation = "square-root" then "√" ++ numToString current
      else numToString current ++ "²"
    Outcome.ok
      { app with
        state :=
          { addToHistory calculationDisplay (numToString result) app.state with
            currentValue := numToString result
            waitingForNewValue := true }
        error := none } []
  else Outcome.ok app []

/-- `handleMemoryOperation` of the source. -/
def handleMemoryOperation (operation : String) (app : AppState) : Outcome :=
  let current := parseFloat app.state.currentValue
  if operation = "memory-clear" then
    Outcome.ok { app with state := { app.state with memory := some 0 } } []
  else if operation = "memory-recall" then
    Outcome.ok { app with state :=
      { app.state with currentValue := numToString app.state.memory, waitingForNewValue := true } } []
  else if operation = "memory-add" then
    Outcome.ok { app with state :=
      { app.state with memory := jsAdd app.state.memory current } } []
  else if operation = "memory-subtract" then
    Outcome.ok { app with state :=
      { app.state with memory := jsSub app.state.memory current } } []
  else Outcome.ok app []

/-- `clearHistory` of the source. -/
def clearHistory (app : AppState) : Outcome :=
  Outcome.ok { app with state := { app.state with history := [] } } []

/-- The history-entry click handler of the source: recall the stored
result. -/
def recallHistoryEntry (item : HistoryItem) (app : AppState) : Outcome :=
  Outcome.ok { app with state :=
    { app.state with currentValue := item.result, waitingForNewValue := true } } []

/-- The four binary operator strings the buttons/keyboard can send. -/
inductive OpKind where
  | add | sub | mul | div
deriving Repr, DecidableEq

/-- The operator string the UI passes for this key. -/
def OpKind.toStr : OpKind → String
  | .add => "+"
  | .sub => "-"
  | .mul => "*"
  | .div => "/"

/-- The three advanced-operation strings the buttons can send. -/
inductive AdvKind where
  | percentage | squareRoot | square
deriving Repr, DecidableEq

/-- The advanced-operation string the UI passes. -/
def AdvKind.toStr : AdvKind → String
  | .percentage => "percentage"
  | .squareRoot => "square-root"
  | .square => "square"

/-- The four memory-operation strings the buttons can send. -/
inductive MemKind where
  | mclear | recall | madd | msub
deriving Repr, DecidableEq

/-- The memory-operation string the UI passes. -/
def MemKind.toStr : MemKind → String
  | .mclear => "memory-clear"
  | .recall => "memory-recall"
  | .madd => "memory-add"
  | .msub => "memory-subtract"

/-- One UI input event, restricted to exactly what the buttons and the
keyboard listener can deliver. -/
inductive Event where
  | digit (d : Fin 10)
  | oper (o : OpKind)
  | decimal
  | equals
  | clear
  | advanced (k : AdvKind)
  | memory (k : MemKind)
  | histClear
  | histSelect (i : Nat)
deriving Repr, DecidableEq

/-- The one-character digit string the UI passes for a digit key. -/
def digitStr (d : Fin 10) : String := String.mk [digitChar d.val]

/-- Dispatch one event to its handler.  A history click can only target an
entry of the current history (the panel renders one row per entry). -/
def step (e : Event) (app : AppState) : Outcome :=
  match e with
  | .digit d => handleNumber (digitStr d) app
  | .oper o => handleOperation o.toStr app
  | .decimal => handleDecimal app
  | .equals => handleEquals app
  | .clear => handleClear app
  | .advanced k => handleAdvancedOperation k.toStr app
  | .memory k => handleMemoryOperation k.toStr app
  | .histClear => clearHistory app
  | .histSelect i =>
    match app.state.history.get? i with
    | some item => recallHistoryEntry item app
    | none => Outcome.ok app []

/-- The state after an outcome: a thrown exception aborts the update, so
the state is unchanged. -/
def applyOutcome (app : AppState) : Outcome → AppState
  | Outcome.ok s _ => s
  | Outcome.thrown _ => app

/-- The state after one event. -/
def stepState (e : Event) (app : AppState) : AppState :=
  applyOutcome app (step e app)

/-- Run a list of events from a state. -/
def runEvents (es : List Event) (app : AppState) : AppState :=
  es.foldl (fun a e => stepState e a) app

/-- The states the session can reach from the initial state. -/
inductive Reachable : AppState → Prop where
  | init : Reachable initialApp
  | step (e : Event) {s : AppState} : Reachable s → Reachable (stepState e s)

/-- The spec's 60-operation history scenario uses this equals-producing
round: `1`, `+`, `1`, `=`. -/
def calcRound : List Event := [Event.digit 1, Event.oper OpKind.add, Event.digit 1, Event.equals]

/-- Run `n` rounds of `1 + 1 =`. -/
def repeatCalc : Nat → AppState → AppState
  | 0, a => a
  | n + 1, a => repeatCalc n (runEvents calcRound a)

/-- The state invariant behind the implicit claims: the display string is
never empty, a pending operator always has a captured left operand, every
recorded result is a nonempty string, and the history is bounded by 50. -/
def GoodCalc (s : CalculatorState) : Prop :=
  s.currentValue ≠ "" ∧
  (∀ op, s.operation = some op → s.previousValue ≠ "") ∧
  (∀ it ∈ s.history, it.result ≠ "") ∧
  s.history.length ≤ 50

/-- The four binary operator strings the UI can deliver (the `Operator`
domain of the specification's data model). -/
def opStrings : List String := ["+", "-", "*", "/"]

/-- The spec's left-associativity scenario: `5`, `+`, `3`, `*`, `2`, `=`. -/
def chainDemo : List Event :=
  [Event.digit 5, Event.oper OpKind.add, Event.digit 3,
   Event.oper OpKind.mul, Event.digit 2, Event.equals]

/-- The spec's divide-by-zero scenario prefix: `8`, `/`, `0`. -/
def divZeroDemo : List Event := [Event.digit 8, Event.oper OpKind.div, Event.digit 0]

/-- Start state of the spec's memory round-trip: `memory = 0`,
`currentValue = "5"`. -/
def memApp0 : AppState := ⟨⟨"5", "", none, some 0, [], false⟩, none, ""⟩

/-- After `M+`. -/
def memApp1 : AppState := stepState (Event.memory MemKind.madd) memApp0

/-- The user then types `2` (the spec's test sets `currentValue = "2"`). -/
def memApp2 : AppState := { memApp1 with state := { memApp1.state with currentValue := "2" } }

/-- After `M-`. -/
def memApp3 : AppState := stepState (Event.memory MemKind.msub) memApp2

/-- After `MR`. -/
def memApp4 : AppState := stepState (Event.memory MemKind.recall) memApp3

example : parseFloat "8" = some 8 := by with_unfolding_all decide
example : parseFloat "-4" = some (-4) := by with_unfolding_all decide
example : parseFloat "0." = some 0 := by with_unfolding_all decide
example : parseFloat "" = none := by with_unfolding_all decide
example : numToString (some 16) = "16" := by with_unfolding_all decide
example : numToString (some (1/2)) = "0.5" := by with_unfolding_all decide
example : numToString (some (-3/2)) = "-1.5" := by with_unfolding_all decide
example :
    (runEvents [Event.digit 5, Event.oper OpKind.add, Event.digit 3,
      Event.oper OpKind.mul, Event.digit 2, Event.equals] initialApp).state.currentValue
      = "16" := by with_unfolding_all decide

theorem str_eq_empty_iff (s : String) : s = "" ↔ s.data = [] := by
  rw [String.ext_iff]

theorem append_ne_empty_left (a b : String) (ha : a ≠ "") : a ++ b ≠ "" := by
  intro h
  rw [str_eq_empty_iff, String.data_append, List.append_eq_nil] at h
  exact ha ((str_eq_empty_iff a).mpr h.1)

theorem append_ne_empty_right (a b : String) (hb : b ≠ "") : a ++ b ≠ "" := by
  intro h
  rw [str_eq_empty_iff, String.data_append, List.append_eq_nil] at h
  exact hb ((str_eq_empty_iff b).mpr h.2)

theorem natToDigits_succ_ne_nil (fuel n : Nat) : natToDigits (fuel + 1) n ≠ [] := by
  unfold natToDigits
  split
  · simp
  · simp

theorem natRepr_ne_empty (n : Nat) : natRepr n ≠ "" := by
  intro he
  exact natToDigits_succ_ne_nil n n ((str_eq_empty_iff _).mp he)

theorem ratToString_ne_empty (q : ℚ) : ratToString q ≠ "" := by
  unfold ratToString
  split
  · exact append_ne_empty_left _ _ (by decide)
  · exact append_ne_empty_left _ _ (natRepr_ne_empty _)

theorem numToString_ne_empty (x : JsNum) : numToString x ≠ "" := by
  cases x
  · decide
  · exact ratToString_ne_empty _

theorem digitStr_ne_empty (d : Fin 10) : digitStr d ≠ "" := by
  intro he
  simpa [digitStr] using (str_eq_empty_iff _).mp he

/-- One `1 + 1 =` round from a state with no pending operator that is
either waiting for a new value or displaying `"0"`: it computes `2` and
prepends the entry `"1 + 1" = "2"` to the truncated history. -/
theorem calcRound_run (cv pv : String) (mem : JsNum) (hist : List HistoryItem)
    (w : Bool) (err : Option String) (pc : String)
    (hw : w = true ∨ (w = false ∧ cv = "0")) :
    runEvents calcRound ⟨⟨cv, pv, none, mem, hist, w⟩, err, pc⟩ =
      ⟨⟨"2", "", none, mem, ⟨"1 + 1", "2"⟩ :: hist.take 49, true⟩, none, ""⟩ := by
  have h1 : parseFloat "1" = some 1 := by with_unfolding_all decide
  have h2 : calculate (some 1) (some 1) "+" = Except.ok (some 2) := by with_unfolding_all rfl
  have h3 : numToString (some 2) = "2" := by with_unfolding_all decide
  rcases hw with hw | ⟨hw, hcv⟩ <;> subst hw
  · simp [runEvents, calcRound, stepState, step, applyOutcome, handleNumber, handleOperation,
      handleEquals, truthy, digitStr, digitChar, OpKind.toStr, addToHistory, getOperationSymbol,
      h1, h2, h3]
  · subst hcv
    simp [runEvents, calcRound, stepState, step, applyOutcome, handleNumber, handleOperation,
      handleEquals, truthy, digitStr, digitChar, OpKind.toStr, addToHistory, getOperationSymbol,
      h1, h2, h3]

/-- After `n` rounds of `1 + 1 =` the history length is the old length
plus `n`, capped at 50. -/
theorem repeatCalc_history_length (n : Nat) :
    ∀ (cv pv : String) (mem : JsNum) (hist : List HistoryItem) (w : Bool)
      (err : Option String) (pc : String),
      (w = true ∨ (w = false ∧ cv = "0")) → hist.length ≤ 50 →
      (repeatCalc n ⟨⟨cv, pv, none, mem, hist, w⟩, err, pc⟩).state.history.length
        = min (hist.length + n) 50 := by
  induction n with
  | zero =>
    intro cv pv mem hist w err pc hw hl
    simp [repeatCalc]
    try omega
  | succ n ih =>
    intro cv pv mem hist w err pc hw hl
    rw [repeatCalc, calcRound_run cv pv mem hist w err pc hw,
      ih "2" "" mem _ true none "" (Or.inl rfl) (by simp [List.length_take]; try omega)]
    simp [List.length_take]
    omega

/-- Sixty `1 + 1 =` rounds from the initial state leave exactly 50
history entries. -/
theorem repeatCalc_60 : (repeatCalc 60 initialApp).state.history.length = 50 := by
  have h := repeatCalc_history_length 60 "0" "" (some 0) [] false none ""
    (Or.inr ⟨rfl, rfl⟩) (by simp)
  simpa [initialApp, initialState] using h

theorem good_hist_cons {hist : List HistoryItem} (item : HistoryItem)
    (hi : item.result ≠ "") (h3 : ∀ it ∈ hist, it.result ≠ "") :
    ∀ it ∈ item :: hist.take 49, it.result ≠ "" := by
  intro it hit
  rcases List.mem_cons.mp hit with h | h
  · exact h ▸ hi
  · exact h3 it (List.mem_of_mem_take h)

theorem hist_cons_le (hist : List HistoryItem) (item : HistoryItem) :
    (item :: hist.take 49).length ≤ 50 := by
  simp [List.length_take]

theorem str_zero_ne_empty : ("0" : String) ≠ "" := by decide

theorem str_zero_dot_ne_empty : ("0." : String) ≠ "" := by decide

theorem good_step (e : Event) (app : AppState) (h : GoodCalc app.state) :
    GoodCalc (stepState e app).state := by
  obtain ⟨h1, h2, h3, h4⟩ := h
  cases e with
  | digit d =>
    simp only [stepState, step, handleNumber]
    split <;> simp only [applyOutcome]
    · exact ⟨digitStr_ne_empty d, h2, h3, h4⟩
    · refine ⟨?_, h2, h3, h4⟩
      split
      · exact digitStr_ne_empty d
      · exact append_ne_empty_right _ _ (digitStr_ne_empty d)
  | oper o =>
    simp only [stepState, step, handleOperation]
    split
    · split <;> simp only [applyOutcome]
      · exact ⟨h1, h2, h3, h4⟩
      · exact ⟨numToString_ne_empty _, fun op hop => numToString_ne_empty _, h3, h4⟩
    · simp only [applyOutcome]
      exact ⟨h1, fun op hop => h1, h3, h4⟩
  | decimal =>
    simp only [stepState, step, handleDecimal]
    split <;> try split
    all_goals simp only [applyOutcome]
    · exact ⟨str_zero_dot_ne_empty, h2, h3, h4⟩
    · exact ⟨append_ne_empty_left _ _ h1, h2, h3, h4⟩
    · exact ⟨h1, h2, h3, h4⟩
  | equals =>
    simp only [stepState, step, handleEquals]
    split
    · split <;> simp only [applyOutcome]
      · simp only [addToHistory]
        exact ⟨numToString_ne_empty _, fun op hop => Option.noConfusion hop,
          good_hist_cons _ (numToString_ne_empty _) h3, hist_cons_le _ _⟩
      · exact ⟨h1, h2, h3, h4⟩
    · simp only [applyOutcome]
      exact ⟨h1, h2, h3, h4⟩
  | clear =>
    simp only [stepState, step, handleClear, applyOutcome]
    exact ⟨str_zero_ne_empty, fun op hop => Option.noConfusion hop, h3, h4⟩
  | advanced k =>
    simp only [stepState, step, handleAdvancedOperation]
    split <;> try split
    all_goals simp only [applyOutcome]
    · exact ⟨h1, h2, h3, h4⟩
    · simp only [addToHistory]
      exact ⟨numToString_ne_empty _, h2,
        good_hist_cons _ (numToString_ne_empty _) h3, hist_cons_le _ _⟩
    · exact ⟨h1, h2, h3, h4⟩
  | memory k =>
    simp only [stepState, step, handleMemoryOperation]
    split <;> try split <;> try split <;> try split
    all_goals simp only [applyOutcome]
    · exact ⟨h1, h2, h3, h4⟩
    · exact ⟨numToString_ne_empty _, h2, h3, h4⟩
    · exact ⟨h1, h2, h3, h4⟩
    · exact ⟨h1, h2, h3, h4⟩
    · exact ⟨h1, h2, h3, h4⟩
  | histClear =>
    simp only [stepState, step, clearHistory, applyOutcome]
    refine ⟨h1, h2, ?_, ?_⟩
    · intro it hit
      exact absurd hit (List.not_mem_nil it)
    · simp
  | histSelect i =>
    simp only [stepState, step]
    split <;> simp only [applyOutcome, recallHistoryEntry]
    · next item heq => exact ⟨h3 item (List.get?_mem heq), h2, h3, h4⟩
    · exact ⟨h1, h2, h3, h4⟩

theorem reachable_good (app : AppState) (h : Reachable app) : GoodCalc app.state := by
  induction h with
  | init =>
    refine ⟨str_zero_ne_empty, fun op hop => Option.noConfusion hop, ?_, ?_⟩
    · intro it hit
      exact absurd hit (List.not_mem_nil it)
    · simp [initialApp, initialState]
  | step e _ ih => exact good_step e _ ih

theorem truthy_of_mem (op : String) (h : op ∈ opStrings) : truthy (some op) = true := by
  fin_cases h <;> decide

/-- Claim C1 (counterexample): after clear, the event sequence `8`, `/`,
`0`, `=` does NOT leave `currentValue = "8"` — the display holds the
typed divisor `"0"`. -/
theorem claim1_counterexample :
    (runEvents (divZeroDemo ++ [Event.equals]) initialApp).state.currentValue ≠ "8" := by
  with_unfolding_all decide

/-- Claim C1 (amended): after clear, `8`, `/`, `0` reaches the state with
`currentValue = "0"`, `previousValue = "8"`, pending operation `/`; the
equals transition then raises exactly one transient DivideByZero error
(`"Cannot divide by zero"`) and leaves the calculator state unchanged —
`currentValue` still `"0"` (the typed divisor, not `"8"`), operation still
Divide, `previousValue` still `"8"`. -/
theorem claim1_divzero_equals :
    runEvents divZeroDemo initialApp = ⟨⟨"0", "8", some "/", some 0, [], false⟩, none, "8 ÷"⟩ ∧
    step Event.equals (runEvents divZeroDemo initialApp) =
      Outcome.ok ⟨⟨"0", "8", some "/", some 0, [], false⟩, some "Cannot divide by zero", "8 ÷"⟩
        ["Cannot divide by zero"] := by
  with_unfolding_all decide

/-- Claim C2: refuted on the code — pressing an operator while a Divide
operation is pending with a zero divisor already typed makes
`handleOperation` call `calculate` with no try/catch, so the
`"Cannot divide by zero"` exception escapes the engine uncaught instead
of being surfaced as a transient message. -/
theorem claim2_operator_divzero_throws :
    step (Event.oper OpKind.add) (runEvents divZeroDemo initialApp) =
      Outcome.thrown "Cannot divide by zero" := by
  with_unfolding_all decide

/-- Claim C4: appending a history entry always prepends the new item to
the front of `history.slice(0, 49)` (so at most 50 entries remain, newest
first); every reachable state has at most 50 entries; and 60 sequential
`1 + 1 =` rounds from the initial state leave exactly 50 entries. -/
theorem claim4_history_bound :
    (∀ (c r : String) (s : CalculatorState),
      (addToHistory c r s).history = ⟨c, r⟩ :: s.history.take 49 ∧
      (addToHistory c r s).history.length ≤ 50) ∧
    (∀ app, Reachable app → app.state.history.length ≤ 50) ∧
    (repeatCalc 60 initialApp).state.history.length = 50 :=
  ⟨fun c r s => ⟨rfl, hist_cons_le s.history ⟨c, r⟩⟩,
   fun app h => (reachable_good app h).2.2.2,
   repeatCalc_60⟩

/-- Witness for C4 at concrete inputs. -/
theorem claim4_history_bound_witness :
    initialApp.state.history.length ≤ 50 ∧
    (repeatCalc 60 initialApp).state.history.length = 50 ∧
    (addToHistory "1 + 1" "2" initialState).history = [⟨"1 + 1", "2"⟩] :=
  ⟨claim4_history_bound.2.1 initialApp Reachable.init,
   claim4_history_bound.2.2,
   (claim4_history_bound.1 "1 + 1" "2" initialState).1⟩

/-- Claim C5: operator chaining is left-associative with no precedence —
after clear, `5`, `+`, `3`, `*`, `2`, `=` yields `"16"` (i.e. `(5+3)*2`),
not `"11"`; and pressing an operator while another is pending and a
second operand was typed (`waitingForNewValue` false) evaluates the
pending operation immediately, setting both `currentValue` and
`previousValue` to its result, installing the new operator and setting
`waitingForNewValue`. -/
theorem claim5_chaining (app : AppState) (op0 op : String) (r : JsNum) :
    ((runEvents chainDemo initialApp).state.currentValue = "16" ∧
     (runEvents chainDemo initialApp).state.currentValue ≠ "11") ∧
    (app.state.operation = some op0 → op0 ∈ opStrings →
     app.state.waitingForNewValue = false →
     calculate (parseFloat app.state.previousValue) (parseFloat app.state.currentValue) op0
       = Except.ok r →
     handleOperation op app =
       Outcome.ok
         ⟨⟨numToString r, numToString r, some op, app.state.memory, app.state.history, true⟩,
           app.error, app.state.currentValue ++ " " ++ getOperationSymbol op⟩ []) := by
  constructor
  · constructor
    · with_unfolding_all decide
    · with_unfolding_all decide
  · intro hop hmem hw hcalc
    have htr : truthy app.state.operation = true := by rw [hop]; exact truthy_of_mem op0 hmem
    unfold handleOperation
    rw [if_pos ⟨htr, hw⟩, hop]
    simp only [Option.getD_some]
    rw [hcalc]

/-- Witness for C5's chained-evaluation clause at a concrete input. -/
theorem claim5_chaining_witness :
    handleOperation "*" ⟨⟨"3", "5", some "+", some 0, [], false⟩, none, "5 +"⟩ =
      Outcome.ok ⟨⟨"8", "8", some "*", some 0, [], true⟩, none, "3 ×"⟩ [] := by
  with_unfolding_all
    exact (claim5_chaining ⟨⟨"3", "5", some "+", some 0, [], false⟩, none, "5 +"⟩ "+" "*"
      (some 8)).2 rfl (by decide) rfl (by rfl)

/-- Claim C6: for every state with a pending operator and non-empty
`previousValue` whose evaluation succeeds, equals appends the history
entry `"<previousValue> <symbol> <currentValue>"` with the result as
text, clears any active transient error, and sets `currentValue` to the
result, `previousValue` to `""`, operation to none and
`waitingForNewValue` to true; with no pending operator or an empty
`previousValue`, equals returns the state unchanged. -/
theorem claim6_equals (app : AppState) (op : String) (r : JsNum) :
    (app.state.operation = some op → op ∈ opStrings → app.state.previousValue ≠ "" →
      calculate (parseFloat app.state.previousValue) (parseFloat app.state.currentValue) op
        = Except.ok r →
      handleEquals app =
        Outcome.ok
          ⟨⟨numToString r, "", none, app.state.memory,
            ⟨app.state.previousValue ++ " " ++ getOperationSymbol op ++ " " ++
                app.state.currentValue, numToString r⟩ :: app.state.history.take 49,
            true⟩, none, ""⟩ []) ∧
    (app.state.operation = none ∨ app.state.previousValue = "" →
      handleEquals app = Outcome.ok app []) := by
  constructor
  · intro hop hmem hprev hcalc
    have htr : truthy app.state.operation = true := by rw [hop]; exact truthy_of_mem op hmem
    unfold handleEquals
    rw [if_pos ⟨htr, hprev⟩, hop]
    simp only [Option.getD_some]
    rw [hcalc]
    simp [addToHistory]
  · intro hor
    unfold handleEquals
    rcases hor with hnone | hprev
    · rw [if_neg]
      rintro ⟨ht, -⟩
      rw [hnone] at ht
      exact absurd ht (by decide)
    · rw [if_neg]
      rintro ⟨-, hp⟩
      exact hp hprev

/-- Witness for C6 at concrete inputs: `5 + 3 =` succeeds and records
`"5 + 3" = "8"`; equals on the initial state (no pending operator) is a
no-op. -/
theorem claim6_equals_witness :
    handleEquals ⟨⟨"3", "5", some "+", some 0, [], false⟩, none, "5 +"⟩ =
      Outcome.ok ⟨⟨"8", "", none, some 0, [⟨"5 + 3", "8"⟩], true⟩, none, ""⟩ [] ∧
    handleEquals initialApp = Outcome.ok initialApp [] := by
  constructor
  · with_unfolding_all
      exact (claim6_equals ⟨⟨"3", "5", some "+", some 0, [], false⟩, none, "5 +"⟩ "+"
        (some 8)).1 rfl (by decide) (by decide) (by rfl)
  · exact (claim6_equals initialApp "+" none).2 (Or.inl rfl)

/-- Claim C7: for every state whose `currentValue` parses to a negative
number, the SquareRoot unary operation leaves the calculator state
unchanged and raises exactly one InvalidInput transient error
(`"Invalid input"`); on a non-negative value it sets `currentValue` to
the square root as text, appends the `"√<current>"` history entry, clears
the transient error, sets `waitingForNewValue`, and leaves
`previousValue` and `operation` untouched. -/
theorem claim7_sqrt (app : AppState) (q : ℚ) :
    (parseFloat app.state.currentValue = some q → q < 0 →
      handleAdvancedOperation "square-root" app =
        Outcome.ok { app with error := some "Invalid input" } ["Invalid input"]) ∧
    (parseFloat app.state.currentValue = some q → 0 ≤ q →
      handleAdvancedOperation "square-root" app =
        Outcome.ok
          ⟨⟨numToString (jsSqrt (some q)), app.state.previousValue, app.state.operation,
            app.state.memory,
            ⟨"√" ++ numToString (some q), numToString (jsSqrt (some q))⟩ ::
              app.state.history.take 49,
            true⟩, none, app.previousCalculation⟩ []) := by
  constructor
  · intro hp hneg
    simp [handleAdvancedOperation, hp, jsLtZero, hneg]
  · intro hp hpos
    simp [handleAdvancedOperation, hp, jsLtZero, not_lt.mpr hpos, addToHistory]

/-- Witness for C7 at concrete inputs: `√` on `"-4"` leaves the state
unchanged with one error, `√` on `"4"` yields `"2"` and records
`"√4" = "2"`. -/
theorem claim7_sqrt_witness :
    handleAdvancedOperation "square-root" ⟨⟨"-4", "", none, some 0, [], false⟩, none, ""⟩ =
      Outcome.ok ⟨⟨"-4", "", none, some 0, [], false⟩, some "Invalid input", ""⟩
        ["Invalid input"] ∧
    handleAdvancedOperation "square-root" ⟨⟨"4", "", none, some 0, [], false⟩, none, ""⟩ =
      Outcome.ok ⟨⟨"2", "", none, some 0, [⟨"√4", "2"⟩], true⟩, none, ""⟩ [] := by
  constructor
  · with_unfolding_all
      exact (claim7_sqrt ⟨⟨"-4", "", none, some 0, [], false⟩, none, ""⟩ (-4)).1 (by rfl)
        (by norm_num)
  · with_unfolding_all
      exact (claim7_sqrt ⟨⟨"4", "", none, some 0, [], false⟩, none, ""⟩ 4).2 (by rfl)
        (by norm_num)

/-- Claim C8: the memory round-trip — from `memory = 0` and
`currentValue = "5"`, memory-add yields `memory = 5`; with
`currentValue = "2"`, memory-subtract yields `memory = 3`; memory-recall
then sets `currentValue` to `"3"` with `waitingForNewValue` true; and no
memory operation ever alters `previousValue`, `operation`, or the
history. -/
theorem claim8_memory (app a1 a2 a3 a4 : AppState)
    (hm : app.state.memory = some 0) (hcv : app.state.currentValue = "5")
    (ha1 : a1 = stepState (Event.memory MemKind.madd) app)
    (ha2 : a2 = { a1 with state := { a1.state with currentValue := "2" } })
    (ha3 : a3 = stepState (Event.memory MemKind.msub) a2)
    (ha4 : a4 = stepState (Event.memory MemKind.recall) a3) :
    (a1.state.memory = some 5 ∧ a3.state.memory = some 3 ∧
     a4.state.currentValue = "3" ∧ a4.state.waitingForNewValue = true) ∧
    (∀ (k : MemKind) (b : AppState),
      (stepState (Event.memory k) b).state.previousValue = b.state.previousValue ∧
      (stepState (Event.memory k) b).state.operation = b.state.operation ∧
      (stepState (Event.memory k) b).state.history = b.state.history) := by
  have h5 : parseFloat "5" = some 5 := by with_unfolding_all decide
  have h2 : parseFloat "2" = some 2 := by with_unfolding_all decide
  have hadd : jsAdd (some 0) (some 5) = some 5 := by with_unfolding_all rfl
  have hsub : jsSub (some 5) (some 2) = some 3 := by with_unfolding_all rfl
  have h3s : numToString (some 3) = "3" := by with_unfolding_all decide
  subst ha1 ha2 ha3 ha4
  constructor
  · simp [stepState, step, handleMemoryOperation, MemKind.toStr, applyOutcome,
      hm, hcv, h5, h2, hadd, hsub, h3s]
  · intro k b
    cases k <;>
      simp [stepState, step, handleMemoryOperation, MemKind.toStr, applyOutcome]

/-- Witness for C8: the round-trip evaluated on the concrete start
state. -/
theorem claim8_memory_witness :
    memApp1.state.memory = some 5 ∧ memApp3.state.memory = some 3 ∧
    memApp4.state.currentValue = "3" ∧ memApp4.state.waitingForNewValue = true :=
  (claim8_memory memApp0 memApp1 memApp2 memApp3 memApp4 rfl rfl rfl rfl rfl rfl).1

/-- Claim C9: for every state, clear resets `currentValue` to `"0"`,
`previousValue` to `""`, the operation to none and `waitingForNewValue`
to false (also clearing the transient error and the display trail), while
leaving the memory register and the history sequence exactly unchanged. -/
theorem claim9_clear :
    ∀ app : AppState,
      handleClear app =
        Outcome.ok ⟨⟨"0", "", none, app.state.memory, app.state.history, false⟩, none, ""⟩ [] :=
  fun _ => rfl

/-- Claim C10 (implicit invariant): in every reachable state
`currentValue` is never the empty string, and whenever an operation is
pending `previousValue` is non-empty. -/
theorem claim10_invariant :
    ∀ app, Reachable app →
      app.state.currentValue ≠ "" ∧
      (∀ op, app.state.operation = some op → app.state.previousValue ≠ "") :=
  fun app h => ⟨(reachable_good app h).1, (reachable_good app h).2.1⟩

/-- Witness for C10 at the initial state. -/
theorem claim10_invariant_witness : initialApp.state.currentValue ≠ "" :=
  (claim10_invariant initialApp Reachable.init).1
